import Mathlib

/-!
Shallow embedding of the PDF2txt processing core (src/converter.py):
the deduplication cache (ImageCache), the rate limiter (RateLimiter),
the analysis client with retry and backoff (PDFConverter.analyze_image),
the decorative-logo filter (PDFConverter._is_edhec_logo) and the
page/image pipeline (PDFConverter.convert_pdf).

Modelling conventions: wall-clock time and sleep durations are exact
rationals; a sleep is modelled as time advancing by the slept amount.
Image fingerprints (md5 hex digests in the source) are opaque strings,
assumed collision-free as the spec does.  The external vision service is
an oracle mapping the 0-based attempt number to the outcome of that
attempt.  The Python dict backing the cache preserves insertion order,
so it is modelled as an insertion-ordered association list.
-/

namespace PDF2txt

/-- Severity levels used by the logger of converter.py. -/
inductive LogLevel
  | info
  | warning
  | error
deriving DecidableEq, Repr

/-- The cache dictionary: an insertion-ordered association list from
fingerprint to stored analysis text, mirroring a Python dict. -/
abbrev Cache := List (String × String)

/-- Python `k in d` followed by `d[k]`: find the value stored under a key. -/
def lookupCache (c : Cache) (k : String) : Option String :=
  (c.find? (fun p => p.1 = k)).map (fun p => p.2)

/-- Python `d[k] = v` on a dict: overwrite in place if the key is present,
otherwise append at the end (dicts preserve insertion order). -/
def dictInsert (c : Cache) (k v : String) : Cache :=
  if (c.find? (fun p => p.1 = k)).isSome then
    c.map (fun p => if p.1 = k then (p.1, v) else p)
  else c ++ [(k, v)]

/-- ImageCache (converter.py lines 19-38): the cache dict plus the
configured capacity. -/
structure ImageCache where
  cache : Cache
  cache_size : Nat
deriving DecidableEq, Repr

/-- ImageCache.is_duplicate (lines 29-38), with the md5 step abstracted to
the fingerprint key: return true on a duplicate; otherwise evict the
oldest entry when at capacity (pop of the first key in insertion order)
and insert the new entry at the end. -/
def ImageCache.is_duplicate (ic : ImageCache) (k v : String) : Bool × ImageCache :=
  if (lookupCache ic.cache k).isSome then (true, ic)
  else
    let c := if ic.cache_size ≤ ic.cache.length then ic.cache.drop 1 else ic.cache
    (false, { ic with cache := c ++ [(k, v)] })

/-- Statistics the logo filter computes from the grayscale rendering of a
decoded image: dimensions from image.size and the grayscale pixel array. -/
structure GrayImg where
  width : Nat
  height : Nat
  pixels : List ℚ
deriving DecidableEq, Repr

/-- np.mean of the grayscale array. -/
def npMean (xs : List ℚ) : ℚ := xs.sum / xs.length

/-- Population variance of the grayscale array; np.std is its square
root, and the filter compares np.std with 60, which for this nonnegative
quantity is equivalent to comparing the variance with 60^2 (proved in
`sqrt_var_lt_iff` below), keeping the definition executable. -/
def npVar (xs : List ℚ) : ℚ :=
  ((xs.map (fun x => (x - npMean xs) ^ 2)).sum) / xs.length

/-- Threshold conjunction of _is_edhec_logo (lines 205-210): nearly
square, mostly bright, low variation, relatively small. -/
def isLogoStats (g : GrayImg) : Bool :=
  decide ((0.8 : ℚ) < (g.width : ℚ) / (g.height : ℚ)) &&
  decide ((g.width : ℚ) / (g.height : ℚ) < (1.2 : ℚ)) &&
  decide ((200 : ℚ) < npMean g.pixels) &&
  decide (npVar g.pixels < 60 ^ 2) &&
  decide (g.width < 300) &&
  decide (g.height < 300)

/-- PDFConverter._is_edhec_logo (lines 190-216): `none` models a failure
of the grayscale decode inside the filter, which is caught, logged at
WARNING, and treated as not decorative (fail open). -/
def is_edhec_logo (gray : Option GrayImg) : Bool × Option LogLevel :=
  match gray with
  | none => (false, some LogLevel.warning)
  | some g => (isLogoStats g, none)

/-- Outcome of one attempt against the external vision service:
a returned text, or a raised exception with its message. -/
inductive SvcOutcome
  | ok (text : String)
  | err (msg : String)
deriving DecidableEq, Repr

/-- An image reaching analyze_image: its fingerprint, the result of
Image.open (error = exception message; `Except.ok none` = opened but the
grayscale statistics step inside the logo filter fails; `Except.ok
(some g)` = fully decoded), and the service oracle giving the outcome of
each 0-based attempt. -/
structure Img where
  hash : String
  decoded : Except String (Option GrayImg)
  svc : Nat → SvcOutcome

/-- Observable side effects of one analyze_image call: number of external
service invocations, number of rate_limiter.wait_if_needed calls, and the
backoff sleeps performed by the retry loop, in order. -/
structure Trace where
  svcCalls : Nat
  rlAcquires : Nat
  backoffs : List ℚ
deriving DecidableEq, Repr

/-- Trace of a call that touched neither the service nor the limiter. -/
def Trace.empty : Trace := ⟨0, 0, []⟩

/-- Error string built by the outer except of analyze_image (line 186). -/
def failMsg (retries : Nat) (e : String) : String :=
  "Error: Failed to analyze image after " ++ toString retries ++ " attempts: " ++ e

/-- Retry loop of analyze_image (lines 156-183).  `attempt` is the 0-based
loop index, `fuel` the remaining iterations (analyze_image starts it at
`retries`).  Each iteration acquires the rate limiter and invokes the
service once; on success the analysis text (or the non-empty placeholder
when the response text is falsy) is written directly into the cache dict
and returned; on failure the loop sleeps base * 2 ^ attempt and retries,
except on the last attempt, where the exception propagates to the outer
except which returns the Error string.  `fuel = 0` is the for-loop
completing without a return, which in the source happens only when
retries = 0 and yields Python None. -/
def analyzeLoop (img : Img) (retries : Nat) (base : ℚ) (attempt fuel : Nat)
    (cache : Cache) (tr : Trace) : Option String × Cache × Trace :=
  match fuel with
  | 0 => (none, cache, tr)
  | Nat.succ fuel1 =>
    let tr1 : Trace := { tr with svcCalls := tr.svcCalls + 1, rlAcquires := tr.rlAcquires + 1 }
    match img.svc attempt with
    | SvcOutcome.ok t =>
      let analysis := if t = "" then "No analysis generated" else t
      (some analysis, dictInsert cache img.hash analysis, tr1)
    | SvcOutcome.err m =>
      if attempt < retries - 1 then
        analyzeLoop img retries base (attempt + 1) fuel1 cache
          { tr1 with backoffs := tr1.backoffs ++ [base * 2 ^ attempt] }
      else
        (some (failMsg retries m), cache, tr1)

/-- PDFConverter.analyze_image (lines 128-188): cache check first, then
decode, then the logo filter, then the retry loop.  Returns the Python
return value (None modelled as `none`), the updated cache state, and the
trace of external interactions. -/
def analyze_image (ic : ImageCache) (img : Img) (retries : Nat) (base : ℚ) :
    Option String × ImageCache × Trace :=
  match lookupCache ic.cache img.hash with
  | some v => (some v, ic, Trace.empty)
  | none =>
    match img.decoded with
    | Except.error e => (some (failMsg retries e), ic, Trace.empty)
    | Except.ok gray =>
      if (is_edhec_logo gray).1 then (none, ic, Trace.empty)
      else
        let r := analyzeLoop img retries base 0 retries ic.cache Trace.empty
        (r.1, { ic with cache := r.2.1 }, r.2.2)

/-- RateLimiter (converter.py lines 40-71): configuration, the deque of
recorded request timestamps (oldest first), and the last-request marker.
min_delay is hardcoded to 1.0 second in the constructor. -/
structure RateLimiter where
  max_requests : Nat
  time_window : ℚ
  requests : List ℚ
  last_request_time : Option ℚ
  min_delay : ℚ
deriving DecidableEq, Repr

/-- RateLimiter.__init__ (lines 42-47). -/
def RateLimiter.init (n : Nat) (w : ℚ) : RateLimiter :=
  ⟨n, w, [], none, 1⟩

/-- RateLimiter.wait_if_needed (lines 49-71).  `now` is the wall clock at
entry (datetime.now() on line 51); the returned rational is the wall
clock at which the call returns, sleeps having advanced it.  Faithful
details: the minimum-delay sleep happens first, but the pruning, the
window-wait computation and the appended timestamp all use the `now`
captured at entry; the last-request marker is set to datetime.now() after
all sleeps, hence to the return time.  When max_requests = 0 the source
indexes an empty deque and raises; the model is only meaningful for
max_requests at least 1, where the guarded branch implies the pruned
deque is nonempty. -/
def RateLimiter.wait_if_needed (rl : RateLimiter) (now : ℚ) : RateLimiter × ℚ :=
  let delay1 : ℚ :=
    match rl.last_request_time with
    | none => 0
    | some l => if now - l < rl.min_delay then rl.min_delay - (now - l) else 0
  let pruned := rl.requests.dropWhile (fun r => decide (r < now - rl.time_window))
  let delay2 : ℚ :=
    if rl.max_requests ≤ pruned.length then
      let wt := pruned.headD 0 + rl.time_window - now
      if 0 < wt then wt else 0
    else 0
  ({ rl with requests := pruned ++ [now],
             last_request_time := some (now + delay1 + delay2) },
   now + delay1 + delay2)

/-- Drive a sequence of sequential wait_if_needed calls: each gap is the
wall-clock delay between the return of one call and the entry of the
next.  Starts the clock at `t`. -/
def RateLimiter.runGaps (rl : RateLimiter) (t : ℚ) (gaps : List ℚ) : RateLimiter × ℚ :=
  gaps.foldl (fun s gap => s.1.wait_if_needed (s.2 + gap)) (rl, t)

/-- One page as the pipeline sees it: the outcome of page.get_text() and
the outcome of page.get_images() combined with doc.extract_image per
image (an Except.error inside the list is a retrieval failure isolated to
that single image). -/
structure PageData where
  textR : Except String String
  imagesR : Except String (List (Except String Img))

/-- A successfully opened document: its ordered pages. -/
structure Doc where
  pages : List PageData

/-- Page separator rule written after each page (line 261): 50 equals signs. -/
def sepRule : String := String.mk (List.replicate 50 '=')

/-- Page header segment (line 236). -/
def pageHeader (n : Nat) : String := "\n=== Page " ++ toString n ++ " ===\n"

/-- Image-section header segment (line 243). -/
def imagesHeader (n : Nat) : String := "\n--- Images on Page " ++ toString n ++ " ---\n"

/-- Image analysis segment (line 253). -/
def imageAnalysisSeg (idx : Nat) (analysis : String) : String :=
  "\n[Image " ++ toString idx ++ " Analysis]\n" ++ analysis ++ "\n"

/-- Error segment for a failure isolated to one image (lines 256-258). -/
def imageErrorSeg (idx pnum : Nat) (e : String) : String :=
  "\n[Error] Error processing image " ++ toString idx ++ " on page " ++ toString pnum ++ ": " ++ e ++ "\n"

/-- Error segment for a failure isolated to one page (lines 264-266). -/
def pageErrorSeg (pnum : Nat) (e : String) : String :=
  "\n[Error] Error processing page " ++ toString pnum ++ ": " ++ e ++ "\n"

/-- Page separator segment appended at line 261. -/
def sepSeg : String := "\n" ++ sepRule ++ "\n"

/-- Per-image loop of convert_pdf (lines 245-258), `idx` being the 1-based
enumeration index: a retrieval failure yields an error segment for that
image only; otherwise analyze_image runs and its result is appended under
the analysis header exactly when it is truthy in Python (not None and not
the empty string). -/
def processImages (retries : Nat) (base : ℚ) (pnum : Nat) :
    Nat → List (Except String Img) → ImageCache → List String × ImageCache
  | _, [], ic => ([], ic)
  | idx, Except.error e :: rest, ic =>
    let r := processImages retries base pnum (idx + 1) rest ic
    (imageErrorSeg idx pnum e :: r.1, r.2)
  | idx, Except.ok img :: rest, ic =>
    let a := analyze_image ic img retries base
    let r := processImages retries base pnum (idx + 1) rest a.2.1
    match a.1 with
    | some s => if s = "" then r else (imageAnalysisSeg idx s :: r.1, r.2)
    | none => r

/-- Per-page body of convert_pdf (lines 230-267): get_text may raise
before the header is appended; get_images may raise after header and text
are appended; in either case the page-level except appends the error
segment and the separator at line 261 is skipped. -/
def pageBlock (retries : Nat) (base : ℚ) (pnum : Nat) (p : PageData) (ic : ImageCache) :
    List String × ImageCache :=
  match p.textR with
  | Except.error e => ([pageErrorSeg pnum e], ic)
  | Except.ok text =>
    match p.imagesR with
    | Except.error e => ([pageHeader pnum, text, pageErrorSeg pnum e], ic)
    | Except.ok imgs =>
      let r := processImages retries base pnum 1 imgs ic
      ([pageHeader pnum, text] ++
         (if imgs.isEmpty then [] else [imagesHeader pnum]) ++ r.1 ++ [sepSeg],
       r.2)

/-- Page loop of convert_pdf, pages enumerated from 1 (line 230). -/
def processPages (retries : Nat) (base : ℚ) :
    Nat → List PageData → ImageCache → List String × ImageCache
  | _, [], ic => ([], ic)
  | pnum, p :: rest, ic =>
    let b := pageBlock retries base pnum p ic
    let r := processPages retries base (pnum + 1) rest b.2
    (b.1 ++ r.1, r.2)

/-- PDFConverter.convert_pdf (lines 218-281).  The opening stage (the
os.path.exists check and fitz.open) is `openR`; on its failure the
function returns False having appended nothing and written nothing
(`none` in the second component means no output file content was
produced).  On success every page is processed, the joined segments are
written, and True is returned. -/
def convert_pdf (openR : Except String Doc) (ic : ImageCache) (retries : Nat) (base : ℚ) :
    Bool × Option (List String) × ImageCache :=
  match openR with
  | Except.error _ => (false, none, ic)
  | Except.ok doc =>
    let r := processPages retries base 1 doc.pages ic
    (true, some r.1, r.2)

/-! Concrete fixtures used by witnesses and counterexamples. -/

/-- Empty cache with the default capacity of 1000. -/
def icEmpty : ImageCache := ⟨[], 1000⟩

/-- Grayscale statistics of a non-decorative image (too wide). -/
def gNormal : GrayImg := ⟨400, 300, [100]⟩

/-- Grayscale statistics matching the decorative signature: 100 by 100,
uniformly bright, no variation. -/
def gLogo : GrayImg := ⟨100, 100, [255, 255, 255, 255]⟩

/-- Grayscale statistics of a large dark image. -/
def gBig : GrayImg := ⟨800, 600, [120]⟩

/-- Fresh non-decorative image whose first service attempt succeeds. -/
def imgB : Img := ⟨"b", Except.ok (some gNormal), fun _ => SvcOutcome.ok "desc"⟩

/-- Decorative image; the service oracle is never reached. -/
def imgLogo : Img := ⟨"lg", Except.ok (some gLogo), fun _ => SvcOutcome.err "never"⟩

/-- Non-decorative image for which every service attempt fails. -/
def imgFail : Img := ⟨"h", Except.ok (some gNormal), fun _ => SvcOutcome.err "boom"⟩

/-- Image whose bytes Image.open cannot decode. -/
def imgBad : Img := ⟨"bad", Except.error "cannot identify image file", fun _ => SvcOutcome.err "x"⟩

/-! Helper lemmas. -/

/-- A key that misses the cache is found at the end after an append. -/
theorem lookupCache_append_self (c : Cache) (k v : String)
    (h : lookupCache c k = none) : lookupCache (c ++ [(k, v)]) k = some v := by
  have hf : c.find? (fun p => p.1 = k) = none := Option.map_eq_none'.mp h
  simp [lookupCache, List.find?_append, hf, List.find?]

/-- The terminal error string of analyze_image is never empty. -/
theorem failMsg_ne_empty (n : Nat) (e : String) : failMsg n e ≠ "" := by
  intro h
  have h2 := congrArg String.length h
  rw [failMsg, String.length_append, String.length_append, String.length_append] at h2
  rw [show ("Error: Failed to analyze image after " : String).length = 37 from rfl] at h2
  rw [show (" attempts: " : String).length = 11 from rfl] at h2
  rw [show ("" : String).length = 0 from rfl] at h2
  omega

/-- The terminal error string of analyze_image begins with the marker
"Error:". -/
theorem failMsg_error_prefix (n : Nat) (e : String) :
    ∃ t, failMsg n e = "Error:" ++ t := by
  refine ⟨" Failed to analyze image after " ++ (toString n ++ (" attempts: " ++ e)), ?_⟩
  rw [failMsg,
    show ("Error: Failed to analyze image after " : String) =
      "Error:" ++ " Failed to analyze image after " from rfl]
  simp only [String.append_assoc]

/-- Shifting a backoff sequence by one attempt. -/
theorem backoff_range_shift (base : ℚ) (attempt f : Nat) (h : 1 ≤ f) :
    base * 2 ^ attempt :: (List.range (f - 1)).map (fun j => base * 2 ^ (attempt + 1 + j)) =
    (List.range f).map (fun j => base * 2 ^ (attempt + j)) := by
  obtain ⟨f1, rfl⟩ : ∃ f1, f = f1 + 1 := ⟨f - 1, by omega⟩
  rw [List.range_succ_eq_map]
  have hfun : ((fun j => base * 2 ^ (attempt + j)) ∘ Nat.succ) =
      fun j => base * 2 ^ (attempt + 1 + j) := by
    funext j
    simp only [Function.comp_apply]
    congr 2
    omega
  simp only [List.map_cons, List.map_map, Nat.add_zero, Nat.add_sub_cancel, hfun]

/-- When every service attempt fails, the retry loop performs exactly
`fuel` further attempts (one limiter acquisition and one external call
each), sleeps the exponential backoffs between consecutive attempts,
leaves the cache untouched and propagates the last error message. -/
theorem analyzeLoop_all_fail (img : Img) (retries : Nat) (base : ℚ)
    (hfail : ∀ i, ∃ m, img.svc i = SvcOutcome.err m) :
    ∀ (fuel attempt : Nat) (cache : Cache) (tr : Trace), 1 ≤ fuel → attempt + fuel = retries →
      ∃ m, img.svc (retries - 1) = SvcOutcome.err m ∧
        analyzeLoop img retries base attempt fuel cache tr =
          (some (failMsg retries m), cache,
           ⟨tr.svcCalls + fuel, tr.rlAcquires + fuel,
            tr.backoffs ++ (List.range (fuel - 1)).map (fun j => base * 2 ^ (attempt + j))⟩) := by
  intro fuel
  induction fuel with
  | zero => intro attempt cache tr h1 hsum; omega
  | succ f ih =>
    intro attempt cache tr h1 hsum
    obtain ⟨m0, hm0⟩ := hfail attempt
    rcases Nat.eq_zero_or_pos f with hf0 | hfpos
    · subst hf0
      have ha : attempt = retries - 1 := by omega
      have hnotlt : ¬ attempt < retries - 1 := by omega
      refine ⟨m0, by rw [← ha]; exact hm0, ?_⟩
      simp [analyzeLoop, hm0, hnotlt]
    · have hlt : attempt < retries - 1 := by omega
      obtain ⟨m, hm, heq⟩ := ih (attempt + 1)
        cache ⟨tr.svcCalls + 1, tr.rlAcquires + 1, tr.backoffs ++ [base * 2 ^ attempt]⟩
        hfpos (by omega)
      refine ⟨m, hm, ?_⟩
      have hstep : analyzeLoop img retries base attempt (f + 1) cache tr =
          analyzeLoop img retries base (attempt + 1) f cache
            ⟨tr.svcCalls + 1, tr.rlAcquires + 1, tr.backoffs ++ [base * 2 ^ attempt]⟩ := by
        simp [analyzeLoop, hm0, hlt]
      rw [hstep]
      dsimp only at heq
      rw [heq]
      have hback : (tr.backoffs ++ [base * 2 ^ attempt]) ++
          (List.range (f - 1)).map (fun j => base * 2 ^ (attempt + 1 + j)) =
          tr.backoffs ++ (List.range (f + 1 - 1)).map (fun j => base * 2 ^ (attempt + j)) := by
        rw [List.append_assoc, List.singleton_append, Nat.add_sub_cancel,
          backoff_range_shift base attempt f hfpos]
      rw [hback]
      have hn1 : tr.svcCalls + 1 + f = tr.svcCalls + (f + 1) := by omega
      have hn2 : tr.rlAcquires + 1 + f = tr.rlAcquires + (f + 1) := by omega
      rw [hn1, hn2]

/-- The retry loop always returns either None or a non-empty string. -/
theorem analyzeLoop_shape (img : Img) (retries : Nat) (base : ℚ) :
    ∀ (fuel attempt : Nat) (cache : Cache) (tr : Trace),
      (analyzeLoop img retries base attempt fuel cache tr).1 = none ∨
      ∃ s, (analyzeLoop img retries base attempt fuel cache tr).1 = some s ∧ s ≠ "" := by
  intro fuel
  induction fuel with
  | zero => intro attempt cache tr; left; rfl
  | succ f ih =>
    intro attempt cache tr
    rcases hsvc : img.svc attempt with t | m
    · right
      by_cases ht : t = ""
      · exact ⟨"No analysis generated", by simp [analyzeLoop, hsvc, ht], by decide⟩
      · exact ⟨t, by simp [analyzeLoop, hsvc, ht], ht⟩
    · by_cases hlt : attempt < retries - 1
      · simpa [analyzeLoop, hsvc, hlt] using
          ih (attempt + 1) cache ⟨tr.svcCalls + 1, tr.rlAcquires + 1, tr.backoffs ++ [base * 2 ^ attempt]⟩
      · exact Or.inr ⟨failMsg retries m, by simp [analyzeLoop, hsvc, hlt], failMsg_ne_empty retries m⟩

/-- C1: the claim asserts that the cache size never exceeds the
configured capacity, with oldest-first eviction on overflow, including
for the insertion analyze_image performs after a successful external
call.  The code violates this: analyze_image writes straight into the
dict, bypassing the capacity check that only ImageCache.is_duplicate
implements (and which the converter never calls), so a capacity-1 cache
holding one entry grows to two entries with nothing evicted — while the
is_duplicate path on the same input would have evicted the oldest entry
and kept the size at capacity. -/
theorem C1_analyze_insert_exceeds_capacity :
    (analyze_image ⟨[("a", "x")], 1⟩ imgB 3 5).2.1.cache = [("a", "x"), ("b", "desc")] ∧
    (analyze_image ⟨[("a", "x")], 1⟩ imgB 3 5).2.1.cache_size = 1 ∧
    ((⟨[("a", "x")], 1⟩ : ImageCache).is_duplicate "b" "desc").2.cache = [("b", "desc")] := by
  refine ⟨?_, ?_, ?_⟩ <;>
    simp +decide [analyze_image, imgB, lookupCache, List.find?, is_edhec_logo, isLogoStats,
      gNormal, npMean, npVar, analyzeLoop, dictInsert, ImageCache.is_duplicate]

/-- C2: if every service attempt for a fresh, decodable, non-decorative
image fails, analyze_image performs exactly `retries` attempts (one
rate-limiter acquisition and one external call each), sleeps the backoff
base * 2 ^ (k - 1) seconds after the k-th failed attempt (1-based k, for
the retries - 1 gaps between consecutive attempts), returns the Error
string built from the last error, and caches nothing: the returned cache
is the given one, which holds no entry for the fingerprint. -/
theorem C2_exhausted_retries (ic : ImageCache) (img : Img) (retries : Nat) (base : ℚ)
    (g : Option GrayImg) (hmiss : lookupCache ic.cache img.hash = none)
    (hdec : img.decoded = Except.ok g) (hlogo : (is_edhec_logo g).1 = false)
    (hfail : ∀ i, ∃ m, img.svc i = SvcOutcome.err m) (h1 : 1 ≤ retries) :
    ∃ m, img.svc (retries - 1) = SvcOutcome.err m ∧
      analyze_image ic img retries base =
        (some (failMsg retries m), ic,
         ⟨retries, retries, (List.range (retries - 1)).map (fun j => base * 2 ^ j)⟩) ∧
      lookupCache (analyze_image ic img retries base).2.1.cache img.hash = none := by
  obtain ⟨m, hm, heq⟩ :=
    analyzeLoop_all_fail img retries base hfail retries 0 ic.cache Trace.empty h1 (by omega)
  have hmain : analyze_image ic img retries base =
      (some (failMsg retries m), ic,
       ⟨retries, retries, (List.range (retries - 1)).map (fun j => base * 2 ^ j)⟩) := by
    rw [show Trace.empty = (⟨0, 0, []⟩ : Trace) from rfl] at heq
    dsimp only at heq
    simp [analyze_image, hmiss, hdec, hlogo, heq, Trace.empty]
  refine ⟨m, hm, hmain, ?_⟩
  rw [hmain]
  exact hmiss

/-- C2 witness: the exhausted-retries behaviour at a concrete
always-failing service with three attempts and base delay five. -/
theorem C2_exhausted_retries_witness :
    ∃ m, imgFail.svc (3 - 1) = SvcOutcome.err m ∧
      analyze_image icEmpty imgFail 3 5 =
        (some (failMsg 3 m), icEmpty,
         ⟨3, 3, (List.range (3 - 1)).map (fun j => (5 : ℚ) * 2 ^ j)⟩) ∧
      lookupCache (analyze_image icEmpty imgFail 3 5).2.1.cache imgFail.hash = none :=
  C2_exhausted_retries icEmpty imgFail 3 5 (some gNormal) rfl rfl
    (by norm_num [is_edhec_logo, isLogoStats, gNormal, npMean, npVar])
    (fun _ => ⟨"boom", rfl⟩) (by omega)

/-- C3 counterexample: the claim asserts that analyzing a decorative
image stores a Skipped marker in the cache keyed by the fingerprint.
The code skips and returns None without writing anything: starting from
the empty cache, analyzing a decorative image returns the skip value but
leaves the cache empty, and a lookup of the fingerprint finds no entry,
refuting the stored-marker conjunct at this input. -/
theorem C3_counterexample :
    (analyze_image icEmpty imgLogo 3 5).1 = none ∧
    (analyze_image icEmpty imgLogo 3 5).2.1.cache = [] ∧
    lookupCache (analyze_image icEmpty imgLogo 3 5).2.1.cache imgLogo.hash = none := by
  refine ⟨?_, ?_, ?_⟩ <;>
    norm_num [analyze_image, imgLogo, lookupCache, is_edhec_logo, isLogoStats,
      gLogo, npMean, npVar, icEmpty]

/-- C3 amended: for a not-yet-cached image that decodes and that the
filter classifies as decorative, analyze_image returns the skip value
None, with no external-service call and no rate-limiter interaction, and
the cache is returned unchanged — no Skipped marker is stored. -/
theorem C3_logo_skip (ic : ImageCache) (img : Img) (retries : Nat) (base : ℚ)
    (g : Option GrayImg) (hmiss : lookupCache ic.cache img.hash = none)
    (hdec : img.decoded = Except.ok g) (hlogo : (is_edhec_logo g).1 = true) :
    analyze_image ic img retries base = (none, ic, Trace.empty) := by
  simp [analyze_image, hmiss, hdec, hlogo]

/-- C3 witness: the amended statement at the decorative fixture. -/
theorem C3_logo_skip_witness :
    analyze_image icEmpty imgLogo 3 5 = (none, icEmpty, Trace.empty) :=
  C3_logo_skip icEmpty imgLogo 3 5 (some gLogo) rfl rfl
    (by norm_num [is_edhec_logo, isLogoStats, gLogo, npMean, npVar])

/-- Cache that already holds an entry for the fingerprint "h". -/
def icHit : ImageCache := ⟨[("h", "cached")], 1000⟩

/-- Image whose fingerprint "h" collides with the icHit entry; its
service oracle would return fresh text if it were ever invoked. -/
def imgH : Img := ⟨"h", Except.ok (some gNormal), fun _ => SvcOutcome.ok "fresh"⟩

/-- C4: when the fingerprint is already cached, analyze_image returns
the cached entry immediately with zero external invocations and zero
rate-limiter interactions, leaving the cache unchanged; and calling
analyze twice on the same image bytes, the first call succeeding on its
first attempt, makes the second call return the now-cached result with
an empty interaction trace. -/
theorem C4_cache_hit (ic : ImageCache) (img : Img) (retries : Nat) (base : ℚ) :
    (∀ v, lookupCache ic.cache img.hash = some v →
      analyze_image ic img retries base = (some v, ic, Trace.empty)) ∧
    (∀ g t, lookupCache ic.cache img.hash = none → img.decoded = Except.ok g →
      (is_edhec_logo g).1 = false → img.svc 0 = SvcOutcome.ok t → 1 ≤ retries →
      ∃ a, analyze_image ic img retries base =
          (some a, ⟨ic.cache ++ [(img.hash, a)], ic.cache_size⟩, ⟨1, 1, []⟩) ∧
        analyze_image ⟨ic.cache ++ [(img.hash, a)], ic.cache_size⟩ img retries base =
          (some a, ⟨ic.cache ++ [(img.hash, a)], ic.cache_size⟩, Trace.empty)) := by
  constructor
  · intro v hv
    simp [analyze_image, hv]
  · intro g t hmiss hdec hlogo hsvc hr
    obtain ⟨r1, rfl⟩ : ∃ r1, retries = r1 + 1 := ⟨retries - 1, by omega⟩
    have hfind : ic.cache.find? (fun p => p.1 = img.hash) = none := Option.map_eq_none'.mp hmiss
    refine ⟨if t = "" then "No analysis generated" else t, ?_, ?_⟩
    · simp [analyze_image, hmiss, hdec, hlogo, analyzeLoop, hsvc, dictInsert, hfind, Trace.empty]
    · have hhit := lookupCache_append_self ic.cache img.hash
        (if t = "" then "No analysis generated" else t) hmiss
      simp [analyze_image, hhit]

/-- C4 witness: a direct hit returns the cached text with an empty
trace, and a fresh image analyzed twice hits its own cached result the
second time. -/
theorem C4_cache_hit_witness :
    analyze_image icHit imgH 3 5 = (some "cached", icHit, Trace.empty) ∧
    (∃ a, analyze_image icEmpty imgB 3 5 =
        (some a, ⟨icEmpty.cache ++ [(imgB.hash, a)], icEmpty.cache_size⟩, ⟨1, 1, []⟩) ∧
      analyze_image ⟨icEmpty.cache ++ [(imgB.hash, a)], icEmpty.cache_size⟩ imgB 3 5 =
        (some a, ⟨icEmpty.cache ++ [(imgB.hash, a)], icEmpty.cache_size⟩, Trace.empty)) :=
  ⟨(C4_cache_hit icHit imgH 3 5).1 "cached" rfl,
   (C4_cache_hit icEmpty imgB 3 5).2 (some gNormal) "desc" rfl rfl
     (by norm_num [is_edhec_logo, isLogoStats, gNormal, npMean, npVar]) rfl (by omega)⟩

/-- C5: the claim asserts the limiter never retains more than N
timestamps younger than W seconds and never returns permitting a request
that places N + 1 timestamps in a trailing W-second window.  The code
violates this because wait_if_needed reuses the wall clock captured at
entry after its minimum-delay sleep and appends without re-checking:
with N = 1, W = 60, acquiring at t = 0, at t = 2 (which sleeps until
t = 60) and again immediately, the third call sleeps only the 1-second
minimum delay and returns at t = 61 while the deque retains [0, 2, 60],
of which the two timestamps 2 and 60 are younger than 60 seconds. -/
theorem C5_window_overflow :
    ((RateLimiter.init 1 60).runGaps 0 [0, 2, 0]).1.requests = [0, 2, 60] ∧
    ((RateLimiter.init 1 60).runGaps 0 [0, 2, 0]).2 = 61 ∧
    (((RateLimiter.init 1 60).runGaps 0 [0, 2, 0]).1.requests.filter
        (fun x => decide ((61 : ℚ) - x < 60))).length = 2 ∧
    ((RateLimiter.init 1 60).runGaps 0 [0, 2, 0]).1.max_requests = 1 := by
  refine ⟨?_, ?_, ?_, ?_⟩ <;>
    norm_num [RateLimiter.runGaps, RateLimiter.wait_if_needed, RateLimiter.init,
      List.dropWhile, List.filter]

/-- C7: when opening the document fails (file missing or unparseable),
convert_pdf returns the document-level failure False and produces no
output content at all, leaving the cache untouched. -/
theorem C7_open_failed (e : String) (ic : ImageCache) (retries : Nat) (base : ℚ) :
    convert_pdf (Except.error e) ic retries base = (false, none, ic) := rfl

/-- The variance of the grayscale array is nonnegative. -/
theorem npVar_nonneg (xs : List ℚ) : 0 ≤ npVar xs := by
  unfold npVar
  apply div_nonneg
  · apply List.sum_nonneg
    intro x hx
    simp only [List.mem_map] at hx
    obtain ⟨y, _, rfl⟩ := hx
    positivity
  · positivity

/-- C8: the filter classifies a decoded image as decorative exactly when
the aspect quotient lies strictly between 0.8 and 1.2, the mean
grayscale brightness exceeds 200, the brightness standard deviation
(the square root of the variance) is below 60, and both dimensions are
below 300; a decode failure inside the filter yields not-decorative with
a WARNING log, and a successful decode yields no log. -/
theorem C8_logo_thresholds :
    (∀ g : GrayImg, isLogoStats g = true ↔
      ((0.8 : ℚ) < (g.width : ℚ) / (g.height : ℚ) ∧ (g.width : ℚ) / (g.height : ℚ) < (1.2 : ℚ) ∧
       (200 : ℚ) < npMean g.pixels ∧ Real.sqrt ((npVar g.pixels : ℚ) : ℝ) < 60 ∧
       g.width < 300 ∧ g.height < 300)) ∧
    is_edhec_logo none = (false, some LogLevel.warning) ∧
    (∀ g : GrayImg, is_edhec_logo (some g) = (isLogoStats g, none)) := by
  refine ⟨?_, rfl, fun g => rfl⟩
  intro g
  have hsq : Real.sqrt ((npVar g.pixels : ℚ) : ℝ) < 60 ↔ npVar g.pixels < 60 ^ 2 := by
    rw [Real.sqrt_lt' (by norm_num : (0 : ℝ) < 60)]
    constructor
    · intro h; exact_mod_cast h
    · intro h; exact_mod_cast h
  simp [isLogoStats, Bool.and_eq_true, decide_eq_true_eq, hsq, and_assoc]

/-- C8 witness: the spec test vectors — a small bright uniform image is
decorative, a large dark one is not, and an undecodable one is
not-decorative with a warning. -/
theorem C8_logo_thresholds_witness :
    isLogoStats gLogo = true ∧ isLogoStats gBig = false ∧
    is_edhec_logo none = (false, some LogLevel.warning) := by
  have h := C8_logo_thresholds
  refine ⟨?_, ?_, h.2.1⟩
  · refine (h.1 gLogo).mpr
      ⟨by norm_num [gLogo], by norm_num [gLogo], by norm_num [gLogo, npMean], ?_,
       by norm_num [gLogo], by norm_num [gLogo]⟩
    have hv : npVar gLogo.pixels = 0 := by norm_num [npVar, npMean, gLogo]
    rw [hv]
    norm_num [Real.sqrt_zero]
  · cases hb : isLogoStats gBig with
    | false => rfl
    | true =>
      exfalso
      have hw : gBig.width < 300 := ((h.1 gBig).mp hb).2.2.2.2.1
      norm_num [gBig] at hw

/-- C10: analyze_image is a total function: it returns either the skip
value None or a non-empty string (given that the cache, as maintained by
the program, holds no empty strings); a decode failure yields the
terminal Error string, which begins with the marker "Error:"; and any
non-empty analysis value — including such failure strings — is appended
by the pipeline under the "[Image N Analysis]" header rather than
dropped. -/
theorem C10_analyze_total (ic : ImageCache) (img : Img) (retries : Nat) (base : ℚ)
    (hcache : ∀ kv ∈ ic.cache, kv.2 ≠ "") :
    ((analyze_image ic img retries base).1 = none ∨
      ∃ s, (analyze_image ic img retries base).1 = some s ∧ s ≠ "") ∧
    (∀ e, lookupCache ic.cache img.hash = none → img.decoded = Except.error e →
      (analyze_image ic img retries base).1 = some (failMsg retries e) ∧
      ∃ t2, failMsg retries e = "Error:" ++ t2) ∧
    (∀ s pnum idx rest, (analyze_image ic img retries base).1 = some s → s ≠ "" →
      (processImages retries base pnum idx (Except.ok img :: rest) ic).1 =
        imageAnalysisSeg idx s ::
          (processImages retries base pnum (idx + 1) rest
            (analyze_image ic img retries base).2.1).1) := by
  refine ⟨?_, ?_, ?_⟩
  · rcases hl : lookupCache ic.cache img.hash with _ | v
    · rcases hd : img.decoded with e | gray
      · exact Or.inr ⟨failMsg retries e, by simp [analyze_image, hl, hd],
          failMsg_ne_empty retries e⟩
      · by_cases hlog : (is_edhec_logo gray).1 = true
        · exact Or.inl (by simp [analyze_image, hl, hd, hlog])
        · rcases analyzeLoop_shape img retries base retries 0 ic.cache Trace.empty with
            h | ⟨s, hs, hne⟩
          · exact Or.inl (by simp [analyze_image, hl, hd, hlog, h])
          · exact Or.inr ⟨s, by simp [analyze_image, hl, hd, hlog, hs], hne⟩
    · obtain ⟨p, hp, hpv⟩ := Option.map_eq_some'.mp hl
      refine Or.inr ⟨v, by simp [analyze_image, hl], ?_⟩
      rw [← hpv]
      exact hcache p (List.mem_of_find?_eq_some hp)
  · intro e hl hd
    exact ⟨by simp [analyze_image, hl, hd], failMsg_error_prefix retries e⟩
  · intro s pnum idx rest hs hne
    simp [processImages, hs, hne]

/-- C10 witness: an undecodable image still produces a value — the
non-empty Error string with the "Error:" marker. -/
theorem C10_analyze_total_witness :
    ((analyze_image icEmpty imgBad 3 5).1 = none ∨
      ∃ s, (analyze_image icEmpty imgBad 3 5).1 = some s ∧ s ≠ "") ∧
    ((analyze_image icEmpty imgBad 3 5).1 = some (failMsg 3 "cannot identify image file") ∧
      ∃ t2, failMsg 3 "cannot identify image file" = "Error:" ++ t2) :=
  ⟨(C10_analyze_total icEmpty imgBad 3 5 (by simp [icEmpty])).1,
   (C10_analyze_total icEmpty imgBad 3 5 (by simp [icEmpty])).2.1
     "cannot identify image file" rfl rfl⟩

/-- A retrieval failure at position j (0-based) of the image list leaves
its error segment in the per-image output, whatever the cache state. -/
theorem processImages_err_mem (retries : Nat) (base : ℚ) (pnum : Nat) :
    ∀ (imgs : List (Except String Img)) (idx : Nat) (ic : ImageCache) (j : Nat) (e : String),
      imgs.get? j = some (Except.error e) →
      imageErrorSeg (idx + j) pnum e ∈ (processImages retries base pnum idx imgs ic).1 := by
  intro imgs
  induction imgs with
  | nil => intro idx ic j e h; simp at h
  | cons x rest ih =>
    intro idx ic j e h
    cases j with
    | zero =>
      simp at h
      subst h
      simp [processImages]
    | succ j =>
      rw [List.get?_cons_succ] at h
      have harith : idx + (j + 1) = idx + 1 + j := by omega
      rw [harith]
      cases x with
      | error e2 =>
        simp only [processImages]
        exact List.mem_cons_of_mem _ (ih (idx + 1) ic j e h)
      | ok img =>
        have hih := ih (idx + 1) (analyze_image ic img retries base).2.1 j e h
        rcases ha : (analyze_image ic img retries base).1 with _ | s
        · simpa [processImages, ha] using hih
        · by_cases hse : s = ""
          · simpa [processImages, ha, hse] using hih
          · simp only [processImages, ha, if_neg hse]
            exact List.mem_cons_of_mem _ hih

/-- A page whose text extraction raises contributes its error segment. -/
theorem pageBlock_pageError_mem (retries : Nat) (base : ℚ) (pnum : Nat) (p : PageData)
    (e : String) (h : p.textR = Except.error e) (ic : ImageCache) :
    pageErrorSeg pnum e ∈ (pageBlock retries base pnum p ic).1 := by
  simp [pageBlock, h]

/-- A page whose image enumeration raises contributes its error
segment. -/
theorem pageBlock_imagesError_mem (retries : Nat) (base : ℚ) (pnum : Nat) (p : PageData)
    (t e : String) (ht : p.textR = Except.ok t) (hi : p.imagesR = Except.error e)
    (ic : ImageCache) :
    pageErrorSeg pnum e ∈ (pageBlock retries base pnum p ic).1 := by
  simp [pageBlock, ht, hi]

/-- A page whose text extraction succeeds contributes its header. -/
theorem pageBlock_header_mem (retries : Nat) (base : ℚ) (pnum : Nat) (p : PageData)
    (t : String) (ht : p.textR = Except.ok t) (ic : ImageCache) :
    pageHeader pnum ∈ (pageBlock retries base pnum p ic).1 := by
  rcases hi : p.imagesR with e | l <;> simp [pageBlock, ht, hi]

/-- A failed image retrieval inside a healthy page contributes its error
segment at the 1-based image index. -/
theorem pageBlock_imageError_mem (retries : Nat) (base : ℚ) (pnum : Nat) (p : PageData)
    (t : String) (imgs : List (Except String Img)) (j : Nat) (e : String)
    (ht : p.textR = Except.ok t) (hi : p.imagesR = Except.ok imgs)
    (hj : imgs.get? j = some (Except.error e)) (ic : ImageCache) :
    imageErrorSeg (1 + j) pnum e ∈ (pageBlock retries base pnum p ic).1 := by
  have hmem := processImages_err_mem retries base pnum imgs 1 ic j e hj
  simp only [pageBlock, ht, hi]
  exact List.mem_append_left _ (List.mem_append_right _ hmem)

/-- A segment present in a page's block for every cache state is present
in the output of the page loop. -/
theorem processPages_block_mem (retries : Nat) (base : ℚ) :
    ∀ (pages : List PageData) (pnum : Nat) (ic : ImageCache) (i : Nat) (p : PageData) (s : String),
      pages.get? i = some p →
      (∀ ic2, s ∈ (pageBlock retries base (pnum + i) p ic2).1) →
      s ∈ (processPages retries base pnum pages ic).1 := by
  intro pages
  induction pages with
  | nil => intro pnum ic i p s h hblk; simp at h
  | cons q rest ih =>
    intro pnum ic i p s h hblk
    cases i with
    | zero =>
      simp at h
      subst h
      simp only [processPages]
      exact List.mem_append_left _ (by simpa using hblk ic)
    | succ i =>
      rw [List.get?_cons_succ] at h
      simp only [processPages]
      refine List.mem_append_right _ ?_
      have hblk2 : ∀ ic2, s ∈ (pageBlock retries base (pnum + 1 + i) p ic2).1 := by
        have harith : pnum + 1 + i = pnum + (i + 1) := by omega
        rw [harith]
        exact hblk
      exact ih (pnum + 1) (pageBlock retries base pnum q ic).2 i p s h hblk2

/-- C6: for every document that opens, and every page, an exception in
that page's text extraction or image enumeration, or in one image's
retrieval, is caught and recorded as an inline error segment while
processing continues: every healthy page still contributes its header
regardless of other pages' failures, and the document-level result is
the completed one (True). -/
theorem C6_failure_isolation (doc : Doc) (ic : ImageCache) (retries : Nat) (base : ℚ) :
    (convert_pdf (Except.ok doc) ic retries base).1 = true ∧
    ∃ out, (convert_pdf (Except.ok doc) ic retries base).2.1 = some out ∧
      (∀ i p e, doc.pages.get? i = some p → p.textR = Except.error e →
        pageErrorSeg (1 + i) e ∈ out) ∧
      (∀ i p t e, doc.pages.get? i = some p → p.textR = Except.ok t →
        p.imagesR = Except.error e → pageErrorSeg (1 + i) e ∈ out) ∧
      (∀ i p t imgs j e, doc.pages.get? i = some p → p.textR = Except.ok t →
        p.imagesR = Except.ok imgs → imgs.get? j = some (Except.error e) →
        imageErrorSeg (1 + j) (1 + i) e ∈ out) ∧
      (∀ i p t, doc.pages.get? i = some p → p.textR = Except.ok t →
        pageHeader (1 + i) ∈ out) := by
  refine ⟨rfl, (processPages retries base 1 doc.pages ic).1, rfl, ?_, ?_, ?_, ?_⟩
  · intro i p e hp he
    exact processPages_block_mem retries base doc.pages 1 ic i p _ hp
      (fun ic2 => pageBlock_pageError_mem retries base (1 + i) p e he ic2)
  · intro i p t e hp ht hi
    exact processPages_block_mem retries base doc.pages 1 ic i p _ hp
      (fun ic2 => pageBlock_imagesError_mem retries base (1 + i) p t e ht hi ic2)
  · intro i p t imgs j e hp ht hi hj
    exact processPages_block_mem retries base doc.pages 1 ic i p _ hp
      (fun ic2 => pageBlock_imageError_mem retries base (1 + i) p t imgs j e ht hi hj ic2)
  · intro i p t hp ht
    exact processPages_block_mem retries base doc.pages 1 ic i p _ hp
      (fun ic2 => pageBlock_header_mem retries base (1 + i) p t ht ic2)

/-- Two-page fixture: page 1 fails text extraction, page 2 is healthy
but its first image fails retrieval. -/
def docMixed : Doc := ⟨[⟨Except.error "text boom", Except.ok []⟩,
  ⟨Except.ok "t2", Except.ok [Except.error "img boom", Except.ok imgB]⟩]⟩

/-- C6 witness: at the mixed fixture the page-1 text failure and the
page-2 image failure each leave an error segment, page 2 still emits its
header, and the document completes. -/
theorem C6_failure_isolation_witness :
    (convert_pdf (Except.ok docMixed) icEmpty 3 5).1 = true ∧
    ∃ out, (convert_pdf (Except.ok docMixed) icEmpty 3 5).2.1 = some out ∧
      pageErrorSeg 1 "text boom" ∈ out ∧ imageErrorSeg 1 2 "img boom" ∈ out ∧
      pageHeader 2 ∈ out := by
  obtain ⟨h1, out, hout, he1, he2, he3, he4⟩ := C6_failure_isolation docMixed icEmpty 3 5
  refine ⟨h1, out, hout, ?_, ?_, ?_⟩
  · simpa using he1 0 _ "text boom" rfl rfl
  · simpa using he3 1 _ "t2" [Except.error "img boom", Except.ok imgB] 0 "img boom" rfl rfl rfl rfl
  · simpa using he4 1 _ "t2" rfl rfl

/-- For every list of pages, the page loop output is the ordered
concatenation of exactly one block per page, and the shape of the i-th
block is determined by how page i fared: a page whose text extraction
raises contributes exactly its error segment (no header, no separator);
a page whose text succeeds but whose image enumeration raises
contributes its header, its text and the error segment (no separator);
a page where both succeed contributes a block opening with the header
and the text verbatim and closing with the separator segment. -/
theorem processPages_blocks (retries : Nat) (base : ℚ) :
    ∀ (pages : List PageData) (pnum : Nat) (ic : ImageCache),
      ∃ segs : List (List String),
        (processPages retries base pnum pages ic).1 = segs.flatten ∧
        segs.length = pages.length ∧
        ∀ i p, pages.get? i = some p →
          (∀ e, p.textR = Except.error e →
            segs.get? i = some [pageErrorSeg (pnum + i) e]) ∧
          (∀ t e, p.textR = Except.ok t → p.imagesR = Except.error e →
            segs.get? i = some [pageHeader (pnum + i), t, pageErrorSeg (pnum + i) e]) ∧
          (∀ t l, p.textR = Except.ok t → p.imagesR = Except.ok l →
            ∃ mid, segs.get? i = some ([pageHeader (pnum + i), t] ++ mid ++ [sepSeg])) := by
  intro pages
  induction pages with
  | nil =>
    intro pnum ic
    exact ⟨[], rfl, rfl, by intro i p h; simp at h⟩
  | cons q rest ih =>
    intro pnum ic
    obtain ⟨segs, hjoin, hlen, hidx⟩ := ih (pnum + 1) (pageBlock retries base pnum q ic).2
    refine ⟨(pageBlock retries base pnum q ic).1 :: segs, ?_, ?_, ?_⟩
    · simp only [processPages, hjoin]
      rfl
    · simpa using hlen
    · intro i p hp
      cases i with
      | zero =>
        simp only [List.get?_cons_zero, Option.some.injEq] at hp
        subst hp
        refine ⟨?_, ?_, ?_⟩
        · intro e he
          simp only [List.get?_cons_zero, Option.some.injEq, Nat.add_zero]
          simp [pageBlock, he]
        · intro t e ht he
          simp only [List.get?_cons_zero, Option.some.injEq, Nat.add_zero]
          simp [pageBlock, ht, he]
        · intro t l ht hl
          refine ⟨(if l.isEmpty then [] else [imagesHeader pnum]) ++
            (processImages retries base pnum 1 l ic).1, ?_⟩
          simp only [List.get?_cons_zero, Option.some.injEq, pageBlock, ht, hl, Nat.add_zero]
          simp [List.append_assoc]
      | succ i =>
        rw [List.get?_cons_succ] at hp
        have harith : pnum + (i + 1) = pnum + 1 + i := by omega
        simp only [List.get?_cons_succ, harith]
        exact hidx i p hp

/-- C9 amended: for every document processed to completion, the
transcript is the in-order concatenation of exactly one block per page;
every page whose text extraction and image enumeration succeed
contributes a block opening with its "=== Page N ===" header segment
followed by that page's extracted text verbatim and closing with the
separator segment, whose rule line is exactly 50 characters; a page
whose text extraction raises contributes only an inline error segment,
with no header and no rule; a page whose image enumeration raises
contributes its header and text followed by an inline error segment,
without the rule. -/
theorem C9_page_format (doc : Doc) (ic : ImageCache) (retries : Nat) (base : ℚ) :
    sepRule.length = 50 ∧
    ∃ segs : List (List String),
      (convert_pdf (Except.ok doc) ic retries base).1 = true ∧
      (convert_pdf (Except.ok doc) ic retries base).2.1 = some segs.flatten ∧
      segs.length = doc.pages.length ∧
      ∀ i p, doc.pages.get? i = some p →
        (∀ e, p.textR = Except.error e →
          segs.get? i = some [pageErrorSeg (1 + i) e]) ∧
        (∀ t e, p.textR = Except.ok t → p.imagesR = Except.error e →
          segs.get? i = some [pageHeader (1 + i), t, pageErrorSeg (1 + i) e]) ∧
        (∀ t l, p.textR = Except.ok t → p.imagesR = Except.ok l →
          ∃ mid, segs.get? i = some ([pageHeader (1 + i), t] ++ mid ++ [sepSeg])) := by
  obtain ⟨segs, hjoin, hlen, hidx⟩ := processPages_blocks retries base doc.pages 1 ic
  exact ⟨rfl, segs, rfl, by simp [convert_pdf, hjoin], hlen, hidx⟩

/-- C9 counterexample: the claim asserts every page of a document
processed to completion contributes a page-header segment.  A document
whose single page raises during text extraction still completes (result
True), but its transcript is the bare error segment: no "=== Page 1 ==="
header segment is contributed for that page. -/
theorem C9_counterexample :
    (convert_pdf (Except.ok ⟨[⟨Except.error "boom", Except.ok []⟩]⟩) icEmpty 3 5).1 = true ∧
    (convert_pdf (Except.ok ⟨[⟨Except.error "boom", Except.ok []⟩]⟩) icEmpty 3 5).2.1 =
      some [pageErrorSeg 1 "boom"] ∧
    pageHeader 1 ∉ [pageErrorSeg 1 "boom"] := by
  refine ⟨rfl, ?_, ?_⟩
  · simp [convert_pdf, processPages, pageBlock]
  · decide

/-- Three-page fixture: page 1 raises during text extraction, page 2
raises during image enumeration, page 3 is healthy with no images. -/
def docAll : Doc := ⟨[⟨Except.error "boom", Except.ok []⟩,
  ⟨Except.ok "t2", Except.error "enum boom"⟩, ⟨Except.ok "t3", Except.ok []⟩]⟩

/-- C9 witness: the amended per-page block shapes at a concrete mixed
document — an error-only block for the page that raises in text
extraction, a header-text-error block for the enumeration failure, and
a full header-to-rule block for the healthy page. -/
theorem C9_page_format_witness :
    sepRule.length = 50 ∧
    ∃ segs : List (List String),
      (convert_pdf (Except.ok docAll) icEmpty 3 5).1 = true ∧
      (convert_pdf (Except.ok docAll) icEmpty 3 5).2.1 = some segs.flatten ∧
      segs.length = 3 ∧
      segs.get? 0 = some [pageErrorSeg 1 "boom"] ∧
      segs.get? 1 = some [pageHeader 2, "t2", pageErrorSeg 2 "enum boom"] ∧
      ∃ mid, segs.get? 2 = some ([pageHeader 3, "t3"] ++ mid ++ [sepSeg]) := by
  obtain ⟨h50, segs, htrue, hout, hlen, hidx⟩ := C9_page_format docAll icEmpty 3 5
  refine ⟨h50, segs, htrue, hout, by simpa using hlen, ?_, ?_, ?_⟩
  · simpa using (hidx 0 _ rfl).1 "boom" rfl
  · simpa using (hidx 1 _ rfl).2.1 "t2" "enum boom" rfl rfl
  · simpa using (hidx 2 _ rfl).2.2 "t3" [] rfl rfl

end PDF2txt
